import Mathlib

/-!
Shallow embedding of the network-primitives layer of the fortio repository
(file fnet/network.go), together with theorems settling the frozen claims
about it.

Modelling conventions:
* Readers are modelled by a finite script of `Read` outcomes: each entry is
  `(nr, er)` giving the byte count returned and the optional error returned
  alongside it (Go readers may return both data and an error in one call).
  Byte contents are irrelevant to every claim, so only counts are tracked.
* Writers are modelled by a function from the write-call index and the
  requested byte count to `(nw, ew)` — the accepted count and optional error
  code.
* Go `uint32` arithmetic is modelled on `Nat` with explicit `% U32`.
* Go runtime panics (integer divide by zero, index out of range) are modelled
  by explicit result constructors, never totalized away.
* Standard-library and OS facilities used by the code (`net.ParseIP`,
  `net.LookupPort`, `net.DefaultResolver.LookupIP`, `rand.Intn`, file reads,
  dialing) are external to the repository and are passed in as oracle
  parameters.
-/

set_option autoImplicit false

namespace Fnet

/-- Error classification of a single `Read` call of a reader (Go error values
returned by `src.Read`): a timeout (satisfies `os.IsTimeout`), a clean
end-of-stream (`io.EOF`), or any other error (tagged by a code). -/
inductive RdErr where
  | timeout
  | eof
  | other (c : Nat)
deriving Repr, DecidableEq

/-- Error result of the copy loop: a writer-reported error (`ew` in the code),
the distinct `io.ErrShortWrite`, the distinct `errInvalidWrite` of the standard
library `io.Copy` (ill-behaved writer reporting more bytes than given), or a
reader error propagated to the caller. -/
inductive CpErr where
  | wr (c : Nat)
  | shortWrite
  | invalidWrite
  | rd (e : RdErr)
deriving Repr, DecidableEq

/-- Result of `fnet.Copy`: bytes written, the returned error, and the number
of error-severity log lines emitted (`log.Errf` calls). -/
structure CopyRes where
  written : Nat
  err : Option CpErr
  errLogs : Nat
deriving Repr, DecidableEq

/-- A writer oracle: write-call index and requested byte count to
(accepted count, optional error code). -/
abbrev WriteFn := Nat → Nat → Nat × Option Nat

/-- A reader script: successive `Read` outcomes `(nr, er)`. -/
abbrev ReadScript := List (Nat × Option RdErr)

/-- Loop body of `fnet.Copy` (network.go lines 429-463), recursing over the
reader script. `k` is the write-call index, `w` the bytes written so far,
`el` the error-log count so far. The empty-script case corresponds to a
reader that would block forever; it is never reached in the theorems. -/
def copyAux (write : WriteFn) : ReadScript → Nat → Nat → Nat → CopyRes
  | [], _, w, el => ⟨w, none, el⟩
  | (nr, er) :: rest, k, w, el =>
    if 0 < nr then
      match write k nr with
      | (nw, ew) =>
        let w' := w + nw
        match ew with
        | some c => ⟨w', some (.wr c), el + 1⟩
        | none =>
          if nr ≠ nw then ⟨w', some .shortWrite, el⟩
          else
            match er with
            | none => copyAux write rest (k + 1) w' el
            | some .timeout => ⟨w', some (.rd .timeout), el⟩
            | some .eof => ⟨w', none, el⟩
            | some (.other c) => ⟨w', some (.rd (.other c)), el + 1⟩
    else
      match er with
      | none => copyAux write rest k w el
      | some .timeout => ⟨w, some (.rd .timeout), el⟩
      | some .eof => ⟨w, none, el⟩
      | some (.other c) => ⟨w, some (.rd (.other c)), el + 1⟩

/-- `fnet.Copy` (network.go lines 429-463): the debug version of `io.Copy`
without the zero-copy optimizations. -/
def Copy (write : WriteFn) (reads : ReadScript) : CopyRes :=
  copyAux write reads 0 0 0

/-- Loop body of the Go standard library `io.Copy` generic path (modelled from
the standard library source: the `WriterTo`/`ReaderFrom` fast paths are
result-equivalent by the standard library's contract and are not modelled).
Returns bytes written and the error. -/
def ioCopyAux (write : WriteFn) : ReadScript → Nat → Nat → Nat × Option CpErr
  | [], _, w => (w, none)
  | (nr, er) :: rest, k, w =>
    if 0 < nr then
      match write k nr with
      | (nw0, ew0) =>
        let nw := if nr < nw0 then 0 else nw0
        let ew : Option CpErr :=
          if nr < nw0 then some ((ew0.map CpErr.wr).getD .invalidWrite)
          else ew0.map CpErr.wr
        let w' := w + nw
        match ew with
        | some e => (w', some e)
        | none =>
          if nr ≠ nw then (w', some .shortWrite)
          else
            match er with
            | none => ioCopyAux write rest (k + 1) w'
            | some .eof => (w', none)
            | some e => (w', some (.rd e))
    else
      match er with
      | none => ioCopyAux write rest k w
      | some .eof => (w, none)
      | some e => (w, some (.rd e))

/-- The Go standard library `io.Copy`, as used by `transfer`. -/
def ioCopy (write : WriteFn) (reads : ReadScript) : Nat × Option CpErr :=
  ioCopyAux write reads 0 0

/-- `ValidatePayloadSize` (network.go lines 574-583), as a pure function of
the current `MaxPayloadSize` and the requested size. -/
def ValidatePayloadSize (maxPayloadSize : Int) (size : Int) : Int :=
  if size > maxPayloadSize ∧ size > 0 then maxPayloadSize
  else if size < 0 then 0
  else size

/-- `GenerateRandomPayload` (network.go lines 586-589): slices the shared
`Payload` buffer to the validated size. The Go slice `Payload[:n]` requires
`n ≤ len(Payload)`, which holds whenever `len(Payload) = MaxPayloadSize`
(maintained by `ChangeMaxPayloadSize`). -/
def GenerateRandomPayload (payload : List Nat) (maxPayloadSize : Int) (payloadSize : Int) :
    List Nat :=
  payload.take (ValidatePayloadSize maxPayloadSize payloadSize).toNat

/-- `GeneratePayload` (network.go lines 602-615). `readFile` is the filesystem
oracle (`ioutil.ReadFile`); a failed read returns `nil` (here `[]`) with a
warning. -/
def GeneratePayload (readFile : String → Option (List Nat)) (payload : List Nat)
    (maxPayloadSize : Int) (payloadFilePath : String) (payloadSize : Int)
    (lit : List Nat) : List Nat :=
  if 0 < payloadFilePath.length then
    match readFile payloadFilePath with
    | none => []
    | some d => d
  else if 0 < payloadSize then GenerateRandomPayload payload maxPayloadSize payloadSize
  else lit

/-- `ChangeMaxPayloadSize` (network.go lines 105-118): returns the new
`MaxPayloadSize` and the length of the regenerated `Payload` buffer. -/
def ChangeMaxPayloadSize (newMaxPayloadSize : Int) : Int × Nat :=
  let m := if 0 ≤ newMaxPayloadSize then newMaxPayloadSize else 0
  (m, m.toNat)

/-! DNS resolution (network.go lines 322-426). The cache globals `dnsHost`,
`dnsAddrs`, `dnsRoundRobin` (lines 80-82) are gathered into a state record;
the mutex is modelled by sequential execution. IPs are represented by the
strings produced by the parse/lookup oracles. -/

/-- Modulus of Go `uint32` arithmetic. -/
def U32 : Nat := 4294967296

/-- The cache for cached-rr mode: globals `dnsHost`, `dnsAddrs`,
`dnsRoundRobin` of network.go lines 80-82, all updated under lock. -/
structure DnsCache where
  dnsHost : String
  dnsAddrs : List String
  dnsRoundRobin : Nat
deriving Repr, DecidableEq

/-- The zero value of the cache globals at process start. -/
def initDnsCache : DnsCache := ⟨"", [], 0⟩

/-- `ClearResolveCache` (network.go lines 324-329): resets host and address
list, leaves the round-robin counter untouched. -/
def ClearResolveCache (st : DnsCache) : DnsCache :=
  { st with dnsHost := "", dnsAddrs := [] }

/-- Outcome of `checkCache`: a miss (lock kept by the caller), a hit with the
chosen index and address, or the Go runtime panic raised by
`dnsRoundRobin % uint32(len(dnsAddrs))` when the truncated length is zero. -/
inductive CheckRes where
  | miss
  | divByZero
  | hit (idx : Nat) (ip : String)
deriving Repr, DecidableEq

/-- `checkCache` (network.go lines 332-344). On a hit the index is
`dnsRoundRobin % uint32(len(dnsAddrs))` and the counter is incremented
(wrapping at 2^32); when the requested host equals the cached host but the
(`uint32`-truncated) list length is zero, the modulo divides by zero. -/
def checkCache (st : DnsCache) (host : String) : CheckRes × DnsCache :=
  if host ≠ st.dnsHost then (.miss, st)
  else
    let m := st.dnsAddrs.length % U32
    if m = 0 then (.divByZero, st)
    else
      let idx := st.dnsRoundRobin % m
      (.hit idx (st.dnsAddrs.getD idx ""),
       { st with dnsRoundRobin := (st.dnsRoundRobin + 1) % U32 })

/-- Oracles for the platform facilities used by resolution: `net.ParseIP`,
`net.LookupPort`, `net.DefaultResolver.LookupIP` (`none` models a non-nil
error) and `rand.Intn`. -/
structure ResolveEnv where
  parseIP : String → Option String
  lookupPort : String → String → Option Nat
  lookupIP : String → String → Option (List String)
  randIntn : Nat → Nat

/-- Outcome of `ResolveByProto`: a resolved IP and port, a port-resolution
error, a host-lookup error, or a Go runtime panic (divide by zero or index
out of range). -/
inductive ResolveRes where
  | ok (ip : String) (port : Nat)
  | portError
  | lookupError
  | panic
deriving Repr, DecidableEq

/-- Result of a resolution call: the outcome, the number of system-resolver
(`LookupIP`) calls performed, and the cache state afterwards. -/
structure ResolveOut where
  res : ResolveRes
  sysLookups : Nat
  cache : DnsCache
deriving Repr, DecidableEq

/-- Character-level model of Go `strings.HasPrefix`-style matching: does the
second list start with the first? (Lean's own `String.startsWith` does not
reduce definitionally, so the Go functions are modelled on character
lists.) -/
def charsStart : List Char → List Char → Bool
  | [], _ => true
  | _ :: _, [] => false
  | p :: ps, c :: cs => p == c && charsStart ps cs

/-- Go `strings.HasPrefix s pat`. -/
def goHasPre (s pat : String) : Bool := charsStart pat.toList s.toList

/-- Go `strings.HasSuffix s pat`. -/
def goHasSuf (s pat : String) : Bool := charsStart pat.toList.reverse s.toList.reverse

/-- Bracket stripping of network.go lines 354-357: `[x]` becomes `x`. -/
def stripBrackets (host : String) : String :=
  if goHasPre host "[" && goHasSuf host "]" then (host.drop 1).dropRight 1
  else host

/-- The indexing `dest.IP = addrs[idx]` of network.go line 413, with the Go
index-out-of-range panic made explicit. -/
def indexAddrs (addrs : List String) (idx : Nat) (p : Nat) : ResolveRes :=
  if idx < addrs.length then .ok (addrs.getD idx "") p else .panic

/-- The post-lookup phase of `ResolveByProto` (network.go lines 381-415):
perform the system lookup, then — only when the (`uint32`-truncated) address
count exceeds 1 — apply the selection method. `cached-rr` re-checks the cache
and installs `(host, addrs, counter 1)` on a repeated miss; `rr` advances the
shared counter without caching; `first` keeps index 0; `rnd` asks the
random oracle. -/
def resolveLookup (env : ResolveEnv) (filter dnsMethod : String) (st : DnsCache)
    (host : String) (p : Nat) : ResolveOut :=
  match env.lookupIP filter host with
  | none => ⟨.lookupError, 1, st⟩
  | some addrs =>
    let l := addrs.length % U32
    if 1 < l then
      if dnsMethod = "cached-rr" then
        match checkCache st host with
        | (.hit _ ip, st') => ⟨.ok ip p, 1, st'⟩
        | (.divByZero, st') => ⟨.panic, 1, st'⟩
        | (.miss, _) => ⟨indexAddrs addrs 0 p, 1, ⟨host, addrs, 1⟩⟩
      else if dnsMethod = "rr" then
        ⟨indexAddrs addrs (st.dnsRoundRobin % l) p, 1,
         { st with dnsRoundRobin := (st.dnsRoundRobin + 1) % U32 }⟩
      else if dnsMethod = "first" then ⟨indexAddrs addrs 0 p, 1, st⟩
      else if dnsMethod = "rnd" then ⟨indexAddrs addrs (env.randIntn l) p, 1, st⟩
      else ⟨indexAddrs addrs 0 p, 1, st⟩
    else ⟨indexAddrs addrs 0 p, 1, st⟩

/-- `ResolveByProto` (network.go lines 351-416): strip IPv6 brackets, resolve
the port, take the literal-IP fast path when `net.ParseIP` succeeds, otherwise
consult the cached-rr cache and fall through to the system lookup. `filter`
and `dnsMethod` are the values of the `resolve-ip-type` and `dns-method`
flags read during the call. -/
def ResolveByProto (env : ResolveEnv) (filter dnsMethod : String) (st : DnsCache)
    (host0 port proto : String) : ResolveOut :=
  let host := stripBrackets host0
  match env.lookupPort proto port with
  | none => ⟨.portError, 0, st⟩
  | some p =>
    match env.parseIP host with
    | some ip => ⟨.ok ip p, 0, st⟩
    | none =>
      if dnsMethod = "cached-rr" then
        match checkCache st host with
        | (.hit _ ip, st') => ⟨.ok ip p, 0, st'⟩
        | (.divByZero, st') => ⟨.panic, 0, st'⟩
        | (.miss, _) => resolveLookup env filter dnsMethod st host p
      else resolveLookup env filter dnsMethod st host p

/-- State of the cache after `n` successive `ResolveByProto` calls for the
same host/port/proto. -/
def resolveRepeat (env : ResolveEnv) (filter dnsMethod host port proto : String) :
    Nat → DnsCache → DnsCache
  | 0, st => st
  | n + 1, st =>
    resolveRepeat env filter dnsMethod host port proto n
      (ResolveByProto env filter dnsMethod st host port proto).cache

/-! Destination parsing and the netcat bridge (network.go lines 270-311 and
656-728). -/

/-- Errors surfaced by destination resolution, dialing and the copy pumps. -/
inductive NetErr where
  | protoMismatch
  | notHostPort
  | portError
  | lookupError
  | panicked
  | dialError (c : Nat)
  | copyError (e : CpErr)
deriving Repr, DecidableEq

/-- Index of the last colon of `dest`, mirroring `strings.LastIndex(dest, ":")`
of network.go line 303 (so `[::1]:port` splits at the final colon). -/
def lastColonIdx (dest : String) : Option Nat :=
  match dest.toList.reverse.findIdx? (fun c => c = ':') with
  | none => none
  | some j => some (dest.toList.length - 1 - j)

/-- The host/port split of network.go lines 303-309. -/
def splitHostPort (dest : String) : Option (String × String) :=
  match lastColonIdx dest with
  | none => none
  | some i => some ((dest.toList.take i).asString, (dest.toList.drop (i + 1)).asString)

/-- Result of `ResolveDestinationInternal`: outcome, system-resolver call
count, and cache state afterwards. -/
structure DestOut where
  res : Except NetErr (String × Nat)
  sysLookups : Nat
  cache : DnsCache
deriving Repr

/-- `ResolveDestinationInternal` (network.go lines 292-311): reject the
unexpected scheme, strip the expected scheme and a trailing slash, split at
the last colon, and resolve via `ResolveByProto` with the first three bytes
of the expected scheme as protocol. -/
def ResolveDestinationInternal (env : ResolveEnv) (filter dnsMethod : String)
    (st : DnsCache) (dest expected unexpected : String) : DestOut :=
  if goHasPre dest unexpected then ⟨.error .protoMismatch, 0, st⟩
  else
    let d1 := if goHasPre dest expected then
        (let d0 := dest.drop expected.length
         if goHasSuf d0 "/" then d0.dropRight 1 else d0)
      else dest
    match splitHostPort d1 with
    | none => ⟨.error .notHostPort, 0, st⟩
    | some (host, port) =>
      let r := ResolveByProto env filter dnsMethod st host port (expected.take 3)
      match r.res with
      | .ok ip p => ⟨.ok (ip, p), r.sysLookups, r.cache⟩
      | .portError => ⟨.error .portError, r.sysLookups, r.cache⟩
      | .lookupError => ⟨.error .lookupError, r.sysLookups, r.cache⟩
      | .panic => ⟨.error .panicked, r.sysLookups, r.cache⟩

/-- The input/output stream pair and socket endpoints of a netcat session:
reads from `in`, writes to the socket, reads from the socket, writes to
`out`. -/
structure NCIO where
  inReads : ReadScript
  sockWrite : WriteFn
  sockReads : ReadScript
  outWrite : WriteFn

/-- `UDPNetCat` (network.go lines 704-728): resolve, dial, run the two pumps
(socket-to-out in a goroutine, in-to-socket inline), set a 400ms read
deadline, wait — and then `return err`, where `err` still holds the (nil)
result of the successful dial: the pump errors `re` and `we` are only
logged, never returned. -/
def UDPNetCat (env : ResolveEnv) (filter dnsMethod : String) (st : DnsCache)
    (dial : Except Nat Unit) (dest : String) (nio : NCIO) (stopOnEOF : Bool) :
    Option NetErr :=
  match (ResolveDestinationInternal env filter dnsMethod st dest "udp://" "tcp://").res with
  | .error e => some e
  | .ok _ =>
    match dial with
    | .error c => some (.dialError c)
    | .ok _ =>
      let _rRes := Copy nio.outWrite nio.sockReads
      let _wRes := Copy nio.sockWrite nio.inReads
      let _ := stopOnEOF
      none

/-- `NetCat` (network.go lines 658-701): a `udp://` destination dispatches to
`UDPNetCat`; otherwise resolve and dial TCP, pump `in` to the socket in a
goroutine and the socket to `out` inline, and return the socket-to-out
(read-side) error if any, else the in-to-socket (write-side) error, else
none. Both pumps are modelled as completed (the `stopOnEOF := true` case
merely skips waiting for the upload pump). -/
def NetCat (env : ResolveEnv) (filter dnsMethod : String) (st : DnsCache)
    (dial : Except Nat Unit) (dest : String) (nio : NCIO) (stopOnEOF : Bool) :
    Option NetErr :=
  if goHasPre dest "udp://" then
    UDPNetCat env filter dnsMethod st dial dest nio stopOnEOF
  else
    match (ResolveDestinationInternal env filter dnsMethod st dest "tcp://" "udp://").res with
    | .error e => some e
    | .ok _ =>
      match dial with
      | .error c => some (.dialError c)
      | .ok _ =>
        let wRes := Copy nio.sockWrite nio.inReads
        let rRes := Copy nio.outWrite nio.sockReads
        match rRes.err with
        | some e => some (.copyError e)
        | none =>
          match wRes.err with
          | some e => some (.copyError e)
          | none => none

/-! The relay proxy (network.go lines 484-549). -/

/-- Per-connection proxy failure: the distinct `ErrNilDestination`
(network.go line 505) or a dial error. -/
inductive ProxyErr where
  | nilDestination
  | dialFail (c : Nat)
deriving Repr, DecidableEq

/-- Outcome of `handleProxyRequest` for one accepted connection: either the
connection was refused (dial failed; inbound closed, no copy performed — the
constructor carries no relay results), or both directional transfers
completed (`wg.Add(2)` matched by two `wg.Done` calls before `wg.Wait`
returns) and both connections were closed. -/
inductive ProxyOutcome where
  | refused (e : ProxyErr) (closedConn : Bool)
  | relayed (c2d d2c : Nat × Option CpErr) (completions : Nat)
      (closedDest closedConn : Bool)
deriving Repr, DecidableEq

/-- The two directional stream pairs of one proxied connection:
client-to-destination and destination-to-client. -/
structure ProxyIO where
  c2dReads : ReadScript
  c2dWrite : WriteFn
  d2cReads : ReadScript
  d2cWrite : WriteFn

/-- `transfer` (network.go lines 484-502): one directional copy task, built
on the standard library `io.Copy`; the half-close calls affect only the
sockets, the value of the transfer is the copy result. -/
def transfer (write : WriteFn) (reads : ReadScript) : Nat × Option CpErr :=
  ioCopy write reads

/-- `handleProxyRequest` (network.go lines 507-527): `err` starts as
`ErrNilDestination` and is replaced by the dial result only when a
destination is present; any error closes the inbound connection and returns.
On success, two `transfer` tasks are started (`wg.Add(2)`), awaited, and both
connections are closed. -/
def handleProxyRequest (dest : Option Unit) (dial : Except Nat Unit) (pio : ProxyIO) :
    ProxyOutcome :=
  match dest with
  | none => .refused .nilDestination true
  | some _ =>
    match dial with
    | .error c => .refused (.dialFail c) true
    | .ok _ =>
      let t1 := transfer pio.c2dWrite pio.c2dReads
      let t2 := transfer pio.d2cWrite pio.d2cReads
      .relayed t1 t2 2 true true

/-- The accept loop of `Proxy` (network.go lines 535-547) over a finite trace
of accept outcomes: an accept error (`none`) is logged and the loop
continues; an accepted connection spawns `handleProxyRequest`. One output is
produced per event — the loop never stops on a failed dial. -/
def proxyAcceptLoop (dest : Option Unit)
    (events : List (Option (Except Nat Unit × ProxyIO))) : List (Option ProxyOutcome) :=
  events.map fun e => e.map fun dp => handleProxyRequest dest dp.1 dp.2

/-! Concrete oracle instances used by the counterexamples and witnesses. -/

/-- An environment whose system resolver returns a single address. -/
def envSingle : ResolveEnv :=
  ⟨fun _ => none, fun _ _ => some 80, fun _ _ => some ["10.0.0.1"], fun _ => 0⟩

/-- An environment recognizing the literal `10.0.0.1` but failing every port
and host lookup. -/
def envLit : ResolveEnv :=
  ⟨fun s => if s = "10.0.0.1" then some s else none, fun _ _ => some 80,
   fun _ _ => none, fun _ => 0⟩

/-- An environment recognizing the literal `127.0.0.1` but whose port lookup
fails (an unresolvable port string). -/
def envPortFail : ResolveEnv :=
  ⟨fun s => if s = "127.0.0.1" then some s else none, fun _ _ => none,
   fun _ _ => none, fun _ => 0⟩

/-- An environment whose system resolver returns three addresses. -/
def envMulti : ResolveEnv :=
  ⟨fun _ => none, fun _ _ => some 80,
   fun _ _ => some ["10.0.0.1", "10.0.0.2", "10.0.0.3"], fun _ => 0⟩

/-- An environment where nothing parses as a literal IP. -/
def envAnon : ResolveEnv :=
  ⟨fun _ => none, fun _ _ => some 80, fun _ _ => some [], fun _ => 0⟩

/-- The three-address list returned by `envMulti`. -/
def addrs3 : List String := ["10.0.0.1", "10.0.0.2", "10.0.0.3"]

/-- A netcat session whose in-to-socket (write-side) pump fails with writer
error 7 while the socket-to-out (read-side) pump ends cleanly. -/
def nioPumpErr : NCIO :=
  ⟨[(2, none)], fun _ n => (n, some 7), [(0, some RdErr.eof)], fun _ n => (n, none)⟩

/-- A proxied connection relaying one byte client-to-destination and nothing
destination-to-client. -/
def pio0 : ProxyIO :=
  ⟨[(1, some RdErr.eof)], fun _ n => (n, none), [(0, some RdErr.eof)], fun _ n => (n, none)⟩

/-- A 1024-byte payload buffer (contents are irrelevant to the claims). -/
def payloadBuf0 : List Nat := List.replicate 1024 0

/-- A filesystem oracle whose every file holds the single byte 9. -/
def readFile0 : String → Option (List Nat) := fun _ => some [9]

/-! Helper lemmas about the copy loop. -/

/-- One clean iteration of the copy loop under a fully-accepting write call:
the read bytes are forwarded and the loop continues. -/
theorem copyAux_clean_step (write : WriteFn) (m : Nat) (rest : ReadScript) (k w el : Nat)
    (hw : write k m = (m, none)) :
    copyAux write ((m, none) :: rest) k w el
      = copyAux write rest (if 0 < m then k + 1 else k) (w + m) el := by
  by_cases hm : 0 < m
  · simp [copyAux, hw, hm]
  · have hz : m = 0 := Nat.eq_zero_of_not_pos hm
    subst hz
    simp [copyAux]

/-- A clean, fully-written read sequence advances the byte counter by its sum
and emits no log, leaving the loop at the remaining script. -/
theorem copyAux_full_clean (write : WriteFn) (hw : ∀ k n, write k n = (n, none)) :
    ∀ (sizes : List Nat) (rest : ReadScript) (k w el : Nat),
      ∃ k', copyAux write ((sizes.map fun m => (m, none)) ++ rest) k w el
        = copyAux write rest k' (w + sizes.sum) el := by
  intro sizes
  induction sizes with
  | nil => exact fun rest k w el => ⟨k, by simp⟩
  | cons m ms ih =>
    intro rest k w el
    rw [List.map_cons, List.cons_append,
        copyAux_clean_step write m _ k w el (hw k m)]
    obtain ⟨k', hk'⟩ := ih rest (if 0 < m then k + 1 else k) (w + m) el
    refine ⟨k', by rw [hk']; congr 1; rw [List.sum_cons]; omega⟩

/-- The final read event of the loop, under a fully-accepting write call:
how each kind of read error ends the loop. -/
theorem copyAux_final_step (write : WriteFn) (n : Nat) (e : RdErr) (k w el : Nat)
    (hw : write k n = (n, none)) :
    copyAux write [(n, some e)] k w el
      = match e with
        | .timeout => ⟨w + n, some (.rd .timeout), el⟩
        | .eof => ⟨w + n, none, el⟩
        | .other c => ⟨w + n, some (.rd (.other c)), el + 1⟩ := by
  by_cases hn : 0 < n
  · cases e <;> simp [copyAux, hw, hn]
  · have hz : n = 0 := Nat.eq_zero_of_not_pos hn
    subst hz
    cases e <;> simp [copyAux]

/-- For every writer that never claims more bytes than it was given (the
`io.Writer` contract), the standard library `io.Copy` loop and `fnet.Copy`
produce the same bytes-written count and the same error; they differ only in
logging. -/
theorem ioCopyAux_eq_copyAux (write : WriteFn) (h : ∀ k n, (write k n).1 ≤ n) :
    ∀ (rs : ReadScript) (k w el : Nat),
      ioCopyAux write rs k w
        = ((copyAux write rs k w el).written, (copyAux write rs k w el).err) := by
  intro rs
  induction rs with
  | nil => intro k w el; simp [ioCopyAux, copyAux]
  | cons hd tl ih =>
    rcases hd with ⟨nr, er⟩
    intro k w el
    by_cases hnr : 0 < nr
    · rcases hwk : write k nr with ⟨nw, ew⟩
      have hle : nw ≤ nr := by have hh := h k nr; rw [hwk] at hh; exact hh
      have hbad : ¬ nr < nw := Nat.not_lt.mpr hle
      cases ew with
      | some c => simp [ioCopyAux, copyAux, hwk, hnr, hbad]
      | none =>
        by_cases hsw : nr = nw
        · subst hsw
          cases er with
          | none =>
            have hgoal := ih (k + 1) (w + nr) el
            simp [ioCopyAux, copyAux, hwk, hnr, hgoal]
          | some e => cases e <;> simp [ioCopyAux, copyAux, hwk, hnr]
        · simp [ioCopyAux, copyAux, hwk, hnr, hbad, hsw]
    · cases er with
      | none =>
        simp only [ioCopyAux, copyAux, if_neg hnr]
        exact ih k w el
      | some e => cases e <;> simp [ioCopyAux, copyAux, hnr]

/-- C5: the Copy primitive's three read-loop endings. With a writer that
accepts everything, after any clean read sequence: a timeout read error is
returned as the error with no error-severity log; a clean end-of-stream ends
the loop with the partial byte count and no error; any other read error is
returned as the error and logged once at error severity. -/
theorem copy_read_ending_taxonomy (write : WriteFn) (hw : ∀ k n, write k n = (n, none))
    (sizes : List Nat) (n : Nat) :
    Copy write ((sizes.map fun m => (m, none)) ++ [(n, some .timeout)])
      = ⟨sizes.sum + n, some (.rd .timeout), 0⟩ ∧
    Copy write ((sizes.map fun m => (m, none)) ++ [(n, some .eof)])
      = ⟨sizes.sum + n, none, 0⟩ ∧
    ∀ c, Copy write ((sizes.map fun m => (m, none)) ++ [(n, some (.other c))])
      = ⟨sizes.sum + n, some (.rd (.other c)), 1⟩ := by
  refine ⟨?_, ?_, fun c => ?_⟩ <;>
  · obtain ⟨k', hk'⟩ := copyAux_full_clean write hw sizes _ 0 0 0
    rw [Copy, hk', copyAux_final_step write n _ k' _ 0 (hw k' n)]
    simp

/-- C5 witness at a concrete reader/writer pair: one 3-byte read then a
clean end-of-stream after 2 more bytes. -/
theorem copy_read_ending_taxonomy_witness :
    (∀ k n, (fun (_ n : Nat) => (n, (none : Option Nat))) k n = (n, none)) ∧
    Copy (fun _ n => (n, none)) (([3].map fun m => (m, none)) ++ [(2, some .eof)])
      = ⟨5, none, 0⟩ :=
  ⟨fun _ _ => rfl,
   (copy_read_ending_taxonomy (fun _ n => (n, none)) (fun _ _ => rfl) [3] 2).2.1⟩

/-- C6 counterexample: a write call that accepts 1 of 2 bytes and also
reports its own error 7 makes `Copy` return that writer error, not the
short-write error — refuting the claim that the short-write error results
independently of the writer's reported error. -/
theorem copy_writer_error_beats_short_write :
    Copy (fun _ _ => (1, some 7)) [(2, none)] = ⟨1, some (.wr 7), 1⟩ ∧
    some (CpErr.wr 7) ≠ some CpErr.shortWrite :=
  ⟨rfl, by decide⟩

/-- C6 amended: at every iteration of the copy loop in which the writer
accepts fewer bytes than were read and reports no error of its own, the loop
aborts with the distinct short-write error (a writer-reported error takes
precedence otherwise). -/
theorem copy_short_write_when_no_writer_error (write : WriteFn) (rest : ReadScript)
    (k w el nr : Nat) (er : Option RdErr) (h0 : 0 < nr)
    (hew : (write k nr).2 = none) (hnw : (write k nr).1 ≠ nr) :
    copyAux write ((nr, er) :: rest) k w el
      = ⟨w + (write k nr).1, some .shortWrite, el⟩ := by
  rcases hwk : write k nr with ⟨nw, ew⟩
  rw [hwk] at hew hnw
  simp only at hew hnw
  subst hew
  simp [copyAux, hwk, h0, Ne.symm hnw]

/-- C6 witness: a writer silently accepting 1 of 2 bytes yields the
short-write error. -/
theorem copy_short_write_witness :
    0 < 2 ∧
    copyAux (fun _ _ => (1, (none : Option Nat))) [(2, none)] 0 0 0
      = ⟨1, some .shortWrite, 0⟩ :=
  ⟨by decide,
   copy_short_write_when_no_writer_error (fun _ _ => (1, none)) [] 0 0 0 2 none
     (by decide) rfl (by decide)⟩

/-- C7: for a proxied connection whose dial succeeds, the handler runs the
two directional transfer tasks — implemented with the standard library
`io.Copy` — whose per-direction results (bytes written and error) coincide
with the shared `fnet.Copy` primitive for any writers obeying the
`io.Writer` contract, registers exactly two completions at the barrier, and
closes both connections afterwards. -/
theorem proxy_transfer_refines_copy (pio : ProxyIO)
    (h1 : ∀ k n, (pio.c2dWrite k n).1 ≤ n) (h2 : ∀ k n, (pio.d2cWrite k n).1 ≤ n) :
    handleProxyRequest (some ()) (.ok ()) pio
      = .relayed
          ((Copy pio.c2dWrite pio.c2dReads).written, (Copy pio.c2dWrite pio.c2dReads).err)
          ((Copy pio.d2cWrite pio.d2cReads).written, (Copy pio.d2cWrite pio.d2cReads).err)
          2 true true := by
  simp only [handleProxyRequest, transfer, ioCopy, Copy]
  rw [ioCopyAux_eq_copyAux pio.c2dWrite h1 pio.c2dReads 0 0 0,
      ioCopyAux_eq_copyAux pio.d2cWrite h2 pio.d2cReads 0 0 0]

/-- C7 witness: a concrete session relaying one byte client-to-destination. -/
theorem proxy_transfer_refines_copy_witness :
    (∀ k n, (pio0.c2dWrite k n).1 ≤ n) ∧
    handleProxyRequest (some ()) (.ok ()) pio0
      = .relayed (1, none) (0, none) 2 true true :=
  ⟨fun _ _ => Nat.le_refl _,
   (proxy_transfer_refines_copy pio0 (fun _ _ => Nat.le_refl _)
      (fun _ _ => Nat.le_refl _)).trans rfl⟩

/-- C9: a nil destination yields the distinct nil-destination error and a
dial failure yields the dial error; in both cases the inbound connection is
closed and the handler returns a refusal carrying no relay results, while
the accept loop produces one outcome per accept event and continues past
every event. -/
theorem proxy_dial_failure_closes_conn :
    (∀ dial pio, handleProxyRequest none dial pio = .refused .nilDestination true) ∧
    (∀ c pio, handleProxyRequest (some ()) (.error c) pio = .refused (.dialFail c) true) ∧
    (∀ dest events, (proxyAcceptLoop dest events).length = events.length) ∧
    (∀ dest e events, proxyAcceptLoop dest (e :: events)
        = (e.map fun dp => handleProxyRequest dest dp.1 dp.2) :: proxyAcceptLoop dest events) :=
  ⟨fun _ _ => rfl, fun _ _ => rfl,
   fun dest events => by simp [proxyAcceptLoop],
   fun _ _ _ => rfl⟩

/-- C8: with the maximum payload size configured to 1024 (which regenerates
a 1024-byte buffer), requesting 2000 bytes yields exactly 1024, requesting
-5 yields 0 bytes, and a non-empty file path takes precedence over any size
(the file's contents are returned); `ValidatePayloadSize` clamps negatives
to 0, clamps values above the maximum to the maximum, and always yields a
value between 0 and the maximum. -/
theorem payload_clamping (buf : List Nat) (hbuf : buf.length = 1024)
    (rf : String → Option (List Nat)) :
    ChangeMaxPayloadSize 1024 = (1024, 1024) ∧
    (GeneratePayload rf buf 1024 "" 2000 []).length = 1024 ∧
    (GeneratePayload rf buf 1024 "" (-5) []).length = 0 ∧
    (∀ path size lit d, 0 < path.length → rf path = some d →
       GeneratePayload rf buf 1024 path size lit = d) ∧
    (∀ maxP size : Int, size < 0 → ValidatePayloadSize maxP size = 0) ∧
    (∀ maxP size : Int, 0 ≤ maxP → maxP < size → ValidatePayloadSize maxP size = maxP) ∧
    (∀ maxP size : Int, 0 ≤ maxP →
       0 ≤ ValidatePayloadSize maxP size ∧ ValidatePayloadSize maxP size ≤ maxP) := by
  refine ⟨rfl, ?_, rfl, ?_, ?_, ?_, ?_⟩
  · have h1 : GeneratePayload rf buf 1024 "" 2000 [] = buf.take 1024 := rfl
    rw [h1, List.length_take, hbuf, Nat.min_self]
  · intro path size lit d hp hrf
    simp only [GeneratePayload]
    rw [if_pos hp, hrf]
  · intro maxP size hneg
    simp only [ValidatePayloadSize]
    split_ifs <;> omega
  · intro maxP size h0 hgt
    simp only [ValidatePayloadSize]
    split_ifs <;> omega
  · intro maxP size h0
    simp only [ValidatePayloadSize]
    split_ifs <;> omega

/-- C8 witness at concrete inputs: a 1024-byte buffer, the oversize and
negative requests, and a file path beating a positive size. -/
theorem payload_clamping_witness :
    payloadBuf0.length = 1024 ∧
    (GeneratePayload readFile0 payloadBuf0 1024 "" 2000 []).length = 1024 ∧
    GeneratePayload readFile0 payloadBuf0 1024 "f" 5 [] = [9] ∧
    ValidatePayloadSize 1024 (-5) = 0 := by
  have hb : payloadBuf0.length = 1024 := by
    simp only [payloadBuf0, List.length_replicate]
  have h := payload_clamping payloadBuf0 hb readFile0
  exact ⟨hb, h.2.1,
    h.2.2.2.1 "f" 5 [] [9] (by decide) rfl,
    h.2.2.2.2.1 1024 (-5) (by decide)⟩

/-! Helper lemmas about the resolver cache. -/

/-- A request for a host different from the cached one is as miss and leaves
the state unchanged. -/
theorem checkCache_miss (st : DnsCache) (host : String) (h : host ≠ st.dnsHost) :
    checkCache st host = (.miss, st) := by
  simp [checkCache, h]

/-- A request for the cached host with a non-empty list (of length below
2^32) is a hit at index counter-mod-length and increments the counter. -/
theorem checkCache_hit_eq (st : DnsCache) (host : String) (hh : host = st.dnsHost)
    (hne : st.dnsAddrs ≠ []) (hW : st.dnsAddrs.length < U32) :
    checkCache st host
      = (.hit (st.dnsRoundRobin % st.dnsAddrs.length)
          (st.dnsAddrs.getD (st.dnsRoundRobin % st.dnsAddrs.length) ""),
         { st with dnsRoundRobin := (st.dnsRoundRobin + 1) % U32 }) := by
  subst hh
  have hm : st.dnsAddrs.length % U32 = st.dnsAddrs.length := Nat.mod_eq_of_lt hW
  have h0 : ¬ st.dnsAddrs.length % U32 = 0 := by
    rw [hm]
    exact fun hc => hne (List.eq_nil_of_length_eq_zero hc)
  simp [checkCache, hm, h0, hne]

/-- A cached-rr resolution for the cached host (non-literal, resolvable
port) is served from the cache: no system lookup, index counter-mod-length,
counter incremented. -/
theorem resolveByProto_hit (env : ResolveEnv) (filter host port proto : String)
    (p : Nat) (addrs : List String) (c : Nat)
    (hs : stripBrackets host = host)
    (hport : env.lookupPort proto port = some p)
    (hip : env.parseIP host = none)
    (hne : addrs ≠ []) (hW : addrs.length < U32) :
    ResolveByProto env filter "cached-rr" ⟨host, addrs, c⟩ host port proto
      = ⟨.ok (addrs.getD (c % addrs.length) "") p, 0, ⟨host, addrs, (c + 1) % U32⟩⟩ := by
  have hcc := checkCache_hit_eq ⟨host, addrs, c⟩ host rfl hne hW
  simp [ResolveByProto, hs, hport, hip, hcc]

/-- A cached-rr miss followed by a multi-address lookup installs the host,
the full address list and counter 1, and returns the address at index 0
after one system lookup. -/
theorem resolveByProto_install (env : ResolveEnv) (filter : String) (st : DnsCache)
    (host port proto : String) (p : Nat) (addrs : List String)
    (hs : stripBrackets host = host)
    (hport : env.lookupPort proto port = some p)
    (hip : env.parseIP host = none)
    (hmiss : host ≠ st.dnsHost)
    (hlook : env.lookupIP filter host = some addrs)
    (hN : 2 ≤ addrs.length) (hW : addrs.length < U32) :
    ResolveByProto env filter "cached-rr" st host port proto
      = ⟨.ok (addrs.getD 0 "") p, 1, ⟨host, addrs, 1⟩⟩ := by
  have hcc := checkCache_miss st host hmiss
  have hm : addrs.length % U32 = addrs.length := Nat.mod_eq_of_lt hW
  have h1 : 1 < addrs.length := hN
  have h0 : 0 < addrs.length := Nat.lt_of_lt_of_le Nat.one_pos (Nat.le_of_lt hN)
  simp [ResolveByProto, resolveLookup, indexAddrs, hs, hport, hip, hcc, hlook, hm, h1, h0]

/-- A cached-rr miss followed by a single-address lookup performs the system
lookup and returns the sole address, but installs nothing: the cache is left
unchanged. -/
theorem resolveByProto_single (env : ResolveEnv) (filter : String) (st : DnsCache)
    (host port proto : String) (p : Nat) (addrs : List String)
    (hs : stripBrackets host = host)
    (hport : env.lookupPort proto port = some p)
    (hip : env.parseIP host = none)
    (hmiss : host ≠ st.dnsHost)
    (hlook : env.lookupIP filter host = some addrs)
    (h1 : addrs.length = 1) :
    ResolveByProto env filter "cached-rr" st host port proto
      = ⟨.ok (addrs.getD 0 "") p, 1, st⟩ := by
  have hcc := checkCache_miss st host hmiss
  have hm : addrs.length % U32 = 1 := by rw [h1]; rfl
  have hm1 : (1 : Nat) % U32 = 1 := rfl
  simp [ResolveByProto, resolveLookup, indexAddrs, hs, hport, hip, hcc, hlook, hm, hm1, h1]

/-- Under the hypotheses of a cache hit on every call, `k` repeated
resolutions advance only the round-robin counter. -/
theorem resolveRepeat_cachedrr (env : ResolveEnv) (filter host port proto : String)
    (p : Nat) (addrs : List String)
    (hs : stripBrackets host = host)
    (hport : env.lookupPort proto port = some p)
    (hip : env.parseIP host = none)
    (hne : addrs ≠ []) (hW : addrs.length < U32) :
    ∀ (k c : Nat), c < U32 →
      resolveRepeat env filter "cached-rr" host port proto k ⟨host, addrs, c⟩
        = ⟨host, addrs, (c + k) % U32⟩ := by
  intro k
  induction k with
  | zero => intro c hc; simp [resolveRepeat, Nat.mod_eq_of_lt hc]
  | succ n ih =>
    intro c hc
    have h1 := resolveByProto_hit env filter host port proto p addrs c hs hport hip hne hW
    have h2 : (c + 1) % U32 < U32 := Nat.mod_lt _ (by norm_num [U32])
    simp only [resolveRepeat, h1]
    rw [ih ((c + 1) % U32) h2, Nat.mod_add_mod]
    have hcn : c + 1 + n = c + (n + 1) := by omega
    rw [hcn]

/-- C1 counterexample: a host resolving to exactly one address under
cached-rr, on a cache miss, is resolved (one system lookup, address at index
0 returned) but never installed — the cache keeps its initial state. This
refutes "this installation happens for every such resolution, including
hosts whose lookup returns exactly one address". -/
theorem resolveByProto_single_addr_no_install :
    ResolveByProto envSingle "ip4" "cached-rr" initDnsCache "h" "80" "tcp"
      = ⟨.ok "10.0.0.1" 80, 1, initDnsCache⟩ ∧
    initDnsCache.dnsHost ≠ "h" ∧ initDnsCache.dnsAddrs = [] :=
  ⟨rfl, by decide, rfl⟩

/-- C1 amended: under cached-rr, a miss performs the system lookup and then
— with no intervening caller — installs the host, its full address list and
counter 1 and returns the address at index 0 only when the lookup returned
at least two addresses; a single-address lookup still returns the address at
index 0 but leaves the cache untouched. -/
theorem resolveByProto_cachedrr_install_iff_multi (env : ResolveEnv) (filter : String)
    (st : DnsCache) (host port proto : String) (p : Nat) (addrs : List String)
    (hs : stripBrackets host = host)
    (hport : env.lookupPort proto port = some p)
    (hip : env.parseIP host = none)
    (hmiss : host ≠ st.dnsHost)
    (hlook : env.lookupIP filter host = some addrs)
    (hW : addrs.length < U32) :
    (2 ≤ addrs.length →
       ResolveByProto env filter "cached-rr" st host port proto
         = ⟨.ok (addrs.getD 0 "") p, 1, ⟨host, addrs, 1⟩⟩) ∧
    (addrs.length = 1 →
       ResolveByProto env filter "cached-rr" st host port proto
         = ⟨.ok (addrs.getD 0 "") p, 1, st⟩) :=
  ⟨fun hN => resolveByProto_install env filter st host port proto p addrs
      hs hport hip hmiss hlook hN hW,
   fun h1 => resolveByProto_single env filter st host port proto p addrs
      hs hport hip hmiss hlook h1⟩

/-- C1 witness: a three-address host is installed with counter 1 and index 0
returned. -/
theorem resolveByProto_cachedrr_install_witness :
    2 ≤ addrs3.length ∧
    ResolveByProto envMulti "ip4" "cached-rr" initDnsCache "h" "80" "tcp"
      = ⟨.ok "10.0.0.1" 80, 1, ⟨"h", addrs3, 1⟩⟩ := by
  have h := resolveByProto_cachedrr_install_iff_multi envMulti "ip4" initDnsCache
      "h" "80" "tcp" 80 addrs3 rfl rfl rfl (by decide) rfl (by decide)
  exact ⟨by decide, h.1 (by decide)⟩

/-- C2 counterexample: for the literal host 127.0.0.1 with an unresolvable
port string, resolution returns the port error, not the literal IP: the port
lookup precedes the literal-IP fast path, refuting "regardless of whether
the port string is itself resolvable". -/
theorem resolveByProto_literal_ip_port_error_first :
    ResolveByProto envPortFail "ip4" "cached-rr" initDnsCache "127.0.0.1" "nosuchport" "tcp"
      = ⟨.portError, 0, initDnsCache⟩ ∧
    envPortFail.parseIP "127.0.0.1" = some "127.0.0.1" :=
  ⟨rfl, rfl⟩

/-- C2 amended: for every literal-IP host (brackets stripped) whose port
resolves, every configured method and every cache state, resolution returns
that exact IP with zero system-resolver calls and an unchanged cache: the
fast path follows the port lookup but precedes cache, policy and host
lookup. -/
theorem resolveByProto_literal_ip_fast_path (env : ResolveEnv) (filter dnsMethod : String)
    (st : DnsCache) (host port proto ip : String) (p : Nat)
    (hport : env.lookupPort proto port = some p)
    (hip : env.parseIP (stripBrackets host) = some ip) :
    ResolveByProto env filter dnsMethod st host port proto = ⟨.ok ip p, 0, st⟩ := by
  simp [ResolveByProto, hport, hip]

/-- C2 witness: the literal 10.0.0.1 under method first with an environment
whose host lookup always fails. -/
theorem resolveByProto_literal_ip_fast_path_witness :
    envLit.lookupPort "tcp" "80" = some 80 ∧
    envLit.parseIP (stripBrackets "10.0.0.1") = some "10.0.0.1" ∧
    ResolveByProto envLit "ip4" "first" initDnsCache "10.0.0.1" "80" "tcp"
      = ⟨.ok "10.0.0.1" 80, 0, initDnsCache⟩ :=
  ⟨rfl, rfl,
   resolveByProto_literal_ip_fast_path envLit "ip4" "first" initDnsCache
     "10.0.0.1" "80" "tcp" "10.0.0.1" 80 rfl rfl⟩

/-- C4: under cached-rr for a host with at least two addresses, the
installing call returns index 0 and sets the counter to 1, and the k-th
subsequent call is a cache hit returning index counter-mod-N = k+1 and
incrementing the counter — so the first N calls return indices 0..N-1 in
order before any repeat. -/
theorem resolveByProto_cachedrr_cycle (env : ResolveEnv) (filter host port proto : String)
    (p : Nat) (addrs : List String) (st0 : DnsCache) (k : Nat)
    (hs : stripBrackets host = host)
    (hport : env.lookupPort proto port = some p)
    (hip : env.parseIP host = none)
    (hmiss : host ≠ st0.dnsHost)
    (hlook : env.lookupIP filter host = some addrs)
    (hN : 2 ≤ addrs.length) (hW : addrs.length < U32)
    (hk : k + 1 < addrs.length) :
    ResolveByProto env filter "cached-rr" st0 host port proto
      = ⟨.ok (addrs.getD 0 "") p, 1, ⟨host, addrs, 1⟩⟩ ∧
    (ResolveByProto env filter "cached-rr"
        (resolveRepeat env filter "cached-rr" host port proto k ⟨host, addrs, 1⟩)
        host port proto).res = .ok (addrs.getD (k + 1) "") p ∧
    (resolveRepeat env filter "cached-rr" host port proto (k + 1)
        ⟨host, addrs, 1⟩).dnsRoundRobin = k + 2 := by
  have hne : addrs ≠ [] := by
    intro hx
    rw [hx] at hN
    simp at hN
  have h1U : (1 : Nat) < U32 := by norm_num [U32]
  have hkW : 1 + k < U32 := Nat.lt_of_le_of_lt (by omega) hW
  have hrep := resolveRepeat_cachedrr env filter host port proto p addrs
      hs hport hip hne hW k 1 h1U
  have hmod : (1 + k) % U32 = 1 + k := Nat.mod_eq_of_lt hkW
  refine ⟨resolveByProto_install env filter st0 host port proto p addrs
      hs hport hip hmiss hlook hN hW, ?_, ?_⟩
  · rw [hrep, hmod,
      resolveByProto_hit env filter host port proto p addrs (1 + k) hs hport hip hne hW]
    have hlt : 1 + k < addrs.length := by omega
    dsimp only
    rw [Nat.mod_eq_of_lt hlt, Nat.add_comm 1 k]
  · have hrep1 := resolveRepeat_cachedrr env filter host port proto p addrs
        hs hport hip hne hW (k + 1) 1 h1U
    rw [hrep1]
    have hlt2 : 1 + (k + 1) < U32 := Nat.lt_of_le_of_lt (by omega) hW
    dsimp only
    rw [Nat.mod_eq_of_lt hlt2]
    omega

/-- C4 witness: three cached addresses; the second post-install call returns
the third address and the counter reaches 3 after two hits. -/
theorem resolveByProto_cachedrr_cycle_witness :
    2 ≤ addrs3.length ∧
    (ResolveByProto envMulti "ip4" "cached-rr"
        (resolveRepeat envMulti "ip4" "cached-rr" "h" "80" "tcp" 1 ⟨"h", addrs3, 1⟩)
        "h" "80" "tcp").res = .ok "10.0.0.3" 80 := by
  have h := resolveByProto_cachedrr_cycle envMulti "ip4" "h" "80" "tcp" 80 addrs3
      initDnsCache 1 rfl rfl rfl (by decide) rfl (by decide) (by decide) (by decide)
  exact ⟨by decide, h.2.1⟩

/-- C10: at the failing input — resolution of the empty (non-literal) host
string under cached-rr in the initial state, or equally after
`ClearResolveCache` — the empty requested host matches the empty cached host
with an empty address list, and the index computation
`dnsRoundRobin % uint32(len(dnsAddrs))` divides by zero (a Go runtime
panic), contradicting the claimed well-definedness. -/
theorem checkCache_empty_host_div_by_zero :
    checkCache initDnsCache "" = (.divByZero, initDnsCache) ∧
    ClearResolveCache ⟨"x", ["1.2.3.4"], 5⟩ = ⟨"", [], 5⟩ ∧
    envAnon.parseIP "" = none ∧
    (ResolveByProto envAnon "ip4" "cached-rr" initDnsCache "" "80" "tcp").res = .panic :=
  ⟨rfl, rfl, rfl, rfl⟩

/-- C3 counterexample: a UDP netcat session whose in-to-socket pump fails
with writer error 7 (and whose resolve and dial succeed) returns no error at
all — the UDP path returns the stale (nil) dial error, refuting "netcat
(both its TCP path and its UDP path) returns the first of the read-side or
write-side error encountered". -/
theorem udpNetCat_drops_pump_error :
    NetCat envLit "ip4" "first" initDnsCache (.ok ()) "udp://10.0.0.1:80" nioPumpErr false
      = none ∧
    (Copy nioPumpErr.sockWrite nioPumpErr.inReads).err = some (.wr 7) :=
  ⟨rfl, rfl⟩

/-- C3 amended: when resolution and dial succeed, the TCP path of netcat
returns the read-side (socket-to-out) error if there is one, else the
write-side (in-to-socket) error, else none; the UDP path returns none
regardless of the pump errors (it can only ever return a resolution or dial
error). -/
theorem netCat_error_priority (env : ResolveEnv) (filter dnsMethod : String)
    (st : DnsCache) (destT destU : String) (nio nio' : NCIO) (stop stop' : Bool)
    (hT : goHasPre destT "udp://" = false)
    (hrT : ∃ v, (ResolveDestinationInternal env filter dnsMethod st destT
        "tcp://" "udp://").res = .ok v)
    (hU : goHasPre destU "udp://" = true)
    (hrU : ∃ v, (ResolveDestinationInternal env filter dnsMethod st destU
        "udp://" "tcp://").res = .ok v) :
    (NetCat env filter dnsMethod st (.ok ()) destT nio stop
       = match (Copy nio.outWrite nio.sockReads).err, (Copy nio.sockWrite nio.inReads).err with
         | some e, _ => some (.copyError e)
         | none, some e => some (.copyError e)
         | none, none => none) ∧
    NetCat env filter dnsMethod st (.ok ()) destU nio' stop' = none := by
  obtain ⟨vT, hvT⟩ := hrT
  obtain ⟨vU, hvU⟩ := hrU
  constructor
  · simp only [NetCat, hT, Bool.false_eq_true, if_false, hvT]
    cases h1 : (Copy nio.outWrite nio.sockReads).err <;>
      cases h2 : (Copy nio.sockWrite nio.inReads).err <;>
      simp [h1, h2]
  · simp only [NetCat, hU, if_true, UDPNetCat, hvU]

/-- C3 witness: with both pumps as in the counterexample session, the TCP
path surfaces the write-side error while the UDP path returns none. -/
theorem netCat_error_priority_witness :
    NetCat envLit "ip4" "first" initDnsCache (.ok ()) "10.0.0.1:80" nioPumpErr false
      = some (.copyError (.wr 7)) ∧
    NetCat envLit "ip4" "first" initDnsCache (.ok ()) "udp://10.0.0.1:80" nioPumpErr true
      = none := by
  have h := netCat_error_priority envLit "ip4" "first" initDnsCache
      "10.0.0.1:80" "udp://10.0.0.1:80" nioPumpErr nioPumpErr false true
      rfl ⟨("10.0.0.1", 80), rfl⟩ rfl ⟨("10.0.0.1", 80), rfl⟩
  exact ⟨h.1, h.2⟩

end Fnet
